import Mathlib

/-!
Verification development for the Duffing-oscillator sweep script
(`src/simulate.py`).  The script is embedded shallowly:

* real-valued quantities of the script are modelled over `ℝ` (the vector
  field, trajectories, standard deviations) and the exact decimal
  configuration constants over `ℚ`;
* `np.arange` and `np.linspace` are embedded with their documented exact
  semantics (`arange` emits `max 0 ⌈(stop-start)/step⌉` points
  `start + i*step`; `linspace` emits `n` evenly spaced points including
  both endpoints);
* `scipy.integrate.solve_ivp` is an external collaborator: it is modelled
  as an oracle `Solver` mapping a sweep combination to the arrays
  (`t`, `y[0]`, `y[1]`) it returns together with its `success` flag.  The
  script never reads that flag;
* `np.std` is embedded as the population standard deviation (its
  documented default, `ddof = 0`);
* the nested sweep loops with the mutable `sim_id` counter become a left
  fold of `sweepStep` over the enumerated combination list, accumulating
  the saved records (the calls to the trajectory sink) and the skipped
  records (the skip log lines).
-/

namespace Simulate

/-- The Duffing vector field of `simulate.py` (the closure `duffing(t, y)`):
given time `t` and state `y = (x, v)` it returns
`(v, (1/m) * (-delta*v - k*x - alpha*x^3 + F*cos(omega*t)))`.
The Python closure captures `m, k, alpha` from module scope and
`F, delta, omega` from the enclosing loop; here they are explicit
arguments, so purity and statelessness are by construction. -/
noncomputable def duffing (m k alpha delta F omega : ℝ) (t : ℝ) (y : ℝ × ℝ) : ℝ × ℝ :=
  (y.2, (1 / m) * (-delta * y.2 - k * y.1 - alpha * y.1 ^ 3 + F * Real.cos (omega * t)))

/-- Exact-arithmetic semantics of `numpy.linspace a b n` (with the default
`endpoint=True`): `n` points `a + i * (b - a)/(n - 1)`. -/
def linspace (a b : ℚ) (n : ℕ) : List ℚ :=
  (List.range n).map fun (i : ℕ) => a + (i : ℚ) * ((b - a) / ((n - 1 : ℕ) : ℚ))

/-- Exact-arithmetic semantics of `numpy.arange start stop step`:
`max 0 ⌈(stop - start)/step⌉` points `start + i * step`. -/
def arange (start stop step : ℚ) : List ℚ :=
  (List.range (⌈(stop - start) / step⌉).toNat).map fun (i : ℕ) => start + (i : ℚ) * step

/-- The configuration surface of `simulate.py`: the module-level constants
(lines 26-56).  The script hard-codes one instance, `theConfig`; the
record makes the configuration an explicit input so that behaviour under
other (including invalid) configurations can be stated. -/
structure Config where
  m : ℚ
  k : ℚ
  alpha : ℚ
  F_values : List ℚ
  delta_values : List ℚ
  omega_values : List ℚ
  t_start : ℚ
  t_end : ℚ
  dt : ℚ
  x0_vals : List ℚ
  v0_vals : List ℚ

/-- The exact configuration constants of `simulate.py`. -/
def theConfig : Config :=
  { m := 1
    k := -1
    alpha := 1
    F_values := [3/10, 7/10, 1]
    delta_values := [1/10, 2/10]
    omega_values := [1, 12/10, 14/10]
    t_start := 0
    t_end := 100
    dt := 1/100
    x0_vals := linspace (-2) 2 5
    v0_vals := linspace (-2) 2 5 }

/-- The output time grid `t_eval = np.arange(t_start, t_end, dt)`. -/
def t_eval (cfg : Config) : List ℚ :=
  arange cfg.t_start cfg.t_end cfg.dt

/-- One sweep combination: swept parameters `(F, delta, omega)` together
with the initial condition `(x0, v0)`. -/
structure Combo where
  F : ℚ
  delta : ℚ
  omega : ℚ
  x0 : ℚ
  v0 : ℚ
deriving DecidableEq

/-- The combinations in the exact order the five nested loops of
`simulate.py` visit them: `F` outermost, then `delta`, `omega`, `x0`,
and `v0` innermost. -/
def sweepCombos (cfg : Config) : List Combo :=
  cfg.F_values.flatMap fun F =>
    cfg.delta_values.flatMap fun delta =>
      cfg.omega_values.flatMap fun omega =>
        cfg.x0_vals.flatMap fun x0 =>
          cfg.v0_vals.map fun v0 => ⟨F, delta, omega, x0, v0⟩

/-- The result object returned by `scipy.integrate.solve_ivp` for one
combination, as far as the script reads it: the time points reached
(`sol.t`), the two solution rows (`sol.y[0]`, `sol.y[1]`) and the
`success` flag.  On an integration failure `success` is `false` and the
arrays cover only the grid points reached before the failure.  The
integrator itself is an external library, so a run of the script is
parametrised by an arbitrary such oracle. -/
structure Sol where
  ts : List ℝ
  xs : List ℝ
  vs : List ℝ
  success : Bool

/-- An integration oracle: what `solve_ivp` returns on each combination. -/
def Solver : Type := Combo → Sol

/-- Arithmetic mean of a list, as `numpy` computes it (`sum / len`). -/
noncomputable def listMean (xs : List ℝ) : ℝ := xs.sum / xs.length

/-- `np.std` with its default `ddof = 0`: the population standard
deviation, the square root of the mean of the squared deviations from
the mean. -/
noncomputable def npStd (xs : List ℝ) : ℝ :=
  Real.sqrt (((xs.map fun a => (a - listMean xs) ^ 2).sum) / xs.length)

/-- The population standard deviation exactly as the specification words
it: the square root of `(1/n) * Σ (x_i - mean)^2`. -/
noncomputable def popStdDev (xs : List ℝ) : ℝ :=
  Real.sqrt ((1 / xs.length) * ((xs.map fun a => (a - xs.sum / xs.length) ^ 2).sum))

/-- The retention condition of the classifier (line 95 of the script):
`x_std > 0.05 or v_std > 0.05` on the arrays the solver returned for
this combination. -/
def retains (solver : Solver) (c : Combo) : Prop :=
  npStd (solver c).xs > 0.05 ∨ npStd (solver c).vs > 0.05

/-- A record handed to the trajectory sink (`np.savetxt` call): the value
of `sim_id` used in the filename, the combination, the three saved
columns and the two statistics printed with it. -/
structure SavedRec where
  simId : ℕ
  combo : Combo
  ts : List ℝ
  xs : List ℝ
  vs : List ℝ
  xStd : ℝ
  vStd : ℝ

/-- A record of a discarded trajectory (the `Skipped` log line). -/
structure SkipRec where
  combo : Combo
  xStd : ℝ
  vStd : ℝ

/-- The cross-iteration state of the sweep: the `sim_id` counter plus the
accumulated sink calls and skip lines (in iteration order). -/
structure SweepState where
  simId : ℕ
  saved : List SavedRec
  skipped : List SkipRec

/-- The sink record built for combination `c` when the counter reads `n`. -/
noncomputable def mkSaved (solver : Solver) (n : ℕ) (c : Combo) : SavedRec :=
  ⟨n, c, (solver c).ts, (solver c).xs, (solver c).vs,
    npStd (solver c).xs, npStd (solver c).vs⟩

/-- The skip record built for combination `c`. -/
noncomputable def mkSkip (solver : Solver) (c : Combo) : SkipRec :=
  ⟨c, npStd (solver c).xs, npStd (solver c).vs⟩

open Classical in
/-- The body of the innermost loop (lines 75-110 of the script): integrate
combination `c`, compute the two standard deviations, and either save the
trajectory under the current `sim_id` and increment the counter, or
record a skip and leave the counter unchanged. -/
noncomputable def sweepStep (solver : Solver) (st : SweepState) (c : Combo) : SweepState :=
  if retains solver c then
    ⟨st.simId + 1, st.saved ++ [mkSaved solver st.simId c], st.skipped⟩
  else
    ⟨st.simId, st.saved, st.skipped ++ [mkSkip solver c]⟩

/-- The whole sweep of `simulate.py` under configuration `cfg` and
integration oracle `solver`: fold the loop body over the enumerated
combinations starting from `sim_id = 0` and empty logs.  The script has
no configuration validation and no error path, which is why the result
type carries none. -/
noncomputable def runSweepCfg (cfg : Config) (solver : Solver) : SweepState :=
  (sweepCombos cfg).foldl (sweepStep solver) ⟨0, [], []⟩

/-- The sweep under the script's own hard-coded configuration. -/
noncomputable def runSweep (solver : Solver) : SweepState :=
  runSweepCfg theConfig solver

open Classical in
/-- Specification of the saved records produced while processing a
combination list with the counter starting at `n`. -/
noncomputable def savedSpec (solver : Solver) : ℕ → List Combo → List SavedRec
  | _, [] => []
  | n, c :: l =>
    if retains solver c then mkSaved solver n c :: savedSpec solver (n + 1) l
    else savedSpec solver n l

open Classical in
/-- Specification of the skip records produced while processing a
combination list. -/
noncomputable def skippedSpec (solver : Solver) : List Combo → List SkipRec
  | [] => []
  | c :: l =>
    if retains solver c then skippedSpec solver l
    else mkSkip solver c :: skippedSpec solver l

open Classical in
/-- The sublist of combinations the classifier retains. -/
noncomputable def filterRetained (solver : Solver) : List Combo → List Combo
  | [] => []
  | c :: l =>
    if retains solver c then c :: filterRetained solver l
    else filterRetained solver l

/-- The index tuples `(iF, idelta, iomega, ix0, iv0)` of the sweep in the
order the nested loops visit them. -/
def sweepIndexCombos : List (ℕ × ℕ × ℕ × ℕ × ℕ) :=
  (List.range theConfig.F_values.length).flatMap fun iF =>
    (List.range theConfig.delta_values.length).flatMap fun id0 =>
      (List.range theConfig.omega_values.length).flatMap fun iw =>
        (List.range theConfig.x0_vals.length).flatMap fun ix =>
          (List.range theConfig.v0_vals.length).map fun iv => (iF, id0, iw, ix, iv)

/-- The combination addressed by an index tuple. -/
def decodeIndex (cfg : Config) (p : ℕ × ℕ × ℕ × ℕ × ℕ) : Combo :=
  ⟨cfg.F_values.getD p.1 0, cfg.delta_values.getD p.2.1 0,
    cfg.omega_values.getD p.2.2.1 0, cfg.x0_vals.getD p.2.2.2.1 0,
    cfg.v0_vals.getD p.2.2.2.2 0⟩

/-- Strict lexicographic order on index tuples, `iF` most significant and
`iv0` least significant. -/
def indexLexLt (p q : ℕ × ℕ × ℕ × ℕ × ℕ) : Prop :=
  p.1 < q.1 ∨ (p.1 = q.1 ∧ (p.2.1 < q.2.1 ∨ (p.2.1 = q.2.1 ∧
    (p.2.2.1 < q.2.2.1 ∨ (p.2.2.1 = q.2.2.1 ∧
      (p.2.2.2.1 < q.2.2.2.1 ∨ (p.2.2.2.1 = q.2.2.2.1 ∧
        p.2.2.2.2 < q.2.2.2.2)))))))

/-- The lexicographic order on index tuples is decidable. -/
instance instDecidableIndexLexLt (p q : ℕ × ℕ × ℕ × ℕ × ℕ) :
    Decidable (indexLexLt p q) := by
  unfold indexLexLt
  exact inferInstance

/-- A solver outcome modelling an integration failure: `success = False`
and only the first two of the 10000 requested grid points were reached
before the failure.  `solve_ivp` returns exactly such a truncated result
object instead of raising. -/
noncomputable def truncSol : Sol :=
  ⟨[0, 1/100], [0, 1], [0, 1], false⟩

/-- An oracle under which integration fails on every combination. -/
noncomputable def truncSolver : Solver := fun _ => truncSol

/-- The first combination the sweep visits. -/
def comboZero : Combo := ⟨3/10, 1/10, 1, -2, -2⟩

/-- The script's configuration with a non-positive mass: an
`InvalidConfiguration` in the specification's taxonomy. -/
def badMassConfig : Config := { theConfig with m := 0 }

/-- The script's configuration with a non-positive time step: another
`InvalidConfiguration` in the specification's taxonomy. -/
def badDtConfig : Config := { theConfig with dt := -(1/100) }


lemma savedSpec_cons_pos (solver : Solver) (n : ℕ) (c : Combo) (l : List Combo)
    (h : retains solver c) :
    savedSpec solver n (c :: l) = mkSaved solver n c :: savedSpec solver (n + 1) l := by
  simp [savedSpec, if_pos h]

lemma savedSpec_cons_neg (solver : Solver) (n : ℕ) (c : Combo) (l : List Combo)
    (h : ¬ retains solver c) :
    savedSpec solver n (c :: l) = savedSpec solver n l := by
  simp [savedSpec, if_neg h]

lemma skippedSpec_cons_pos (solver : Solver) (c : Combo) (l : List Combo)
    (h : retains solver c) :
    skippedSpec solver (c :: l) = skippedSpec solver l := by
  simp [skippedSpec, if_pos h]

lemma skippedSpec_cons_neg (solver : Solver) (c : Combo) (l : List Combo)
    (h : ¬ retains solver c) :
    skippedSpec solver (c :: l) = mkSkip solver c :: skippedSpec solver l := by
  simp [skippedSpec, if_neg h]

lemma filterRetained_cons_pos (solver : Solver) (c : Combo) (l : List Combo)
    (h : retains solver c) :
    filterRetained solver (c :: l) = c :: filterRetained solver l := by
  simp [filterRetained, if_pos h]

lemma filterRetained_cons_neg (solver : Solver) (c : Combo) (l : List Combo)
    (h : ¬ retains solver c) :
    filterRetained solver (c :: l) = filterRetained solver l := by
  simp [filterRetained, if_neg h]

lemma foldl_sweepStep (solver : Solver) (l : List Combo) :
    ∀ (n : ℕ) (s : List SavedRec) (k : List SkipRec),
      l.foldl (sweepStep solver) ⟨n, s, k⟩ =
        ⟨n + (filterRetained solver l).length, s ++ savedSpec solver n l,
          k ++ skippedSpec solver l⟩ := by
  induction l with
  | nil =>
    intro n s k
    simp [filterRetained, savedSpec, skippedSpec]
  | cons c l ih =>
    intro n s k
    by_cases h : retains solver c
    · rw [List.foldl_cons, savedSpec_cons_pos solver n c l h,
        skippedSpec_cons_pos solver c l h, filterRetained_cons_pos solver c l h]
      simp only [sweepStep, if_pos h]
      rw [ih]
      simp [SweepState.mk.injEq, List.append_assoc]
      omega
    · rw [List.foldl_cons, savedSpec_cons_neg solver n c l h,
        skippedSpec_cons_neg solver c l h, filterRetained_cons_neg solver c l h]
      simp only [sweepStep, if_neg h]
      rw [ih]
      simp [SweepState.mk.injEq, List.append_assoc]

lemma runSweep_eq (solver : Solver) :
    runSweep solver =
      ⟨(filterRetained solver (sweepCombos theConfig)).length,
        savedSpec solver 0 (sweepCombos theConfig),
        skippedSpec solver (sweepCombos theConfig)⟩ := by
  rw [runSweep, runSweepCfg, foldl_sweepStep]
  simp



lemma mem_filterRetained (solver : Solver) (l : List Combo) (c : Combo) :
    c ∈ filterRetained solver l ↔ c ∈ l ∧ retains solver c := by
  induction l with
  | nil => simp [filterRetained]
  | cons a l ih =>
    by_cases h : retains solver a
    · rw [filterRetained_cons_pos solver a l h]
      simp only [List.mem_cons, ih]
      constructor
      · rintro (rfl | ⟨hc, hr⟩)
        · exact ⟨Or.inl rfl, h⟩
        · exact ⟨Or.inr hc, hr⟩
      · rintro ⟨rfl | hc, hr⟩
        · exact Or.inl rfl
        · exact Or.inr ⟨hc, hr⟩
    · rw [filterRetained_cons_neg solver a l h, ih]
      simp only [List.mem_cons]
      constructor
      · rintro ⟨hc, hr⟩
        exact ⟨Or.inr hc, hr⟩
      · rintro ⟨rfl | hc, hr⟩
        · exact absurd hr h
        · exact ⟨hc, hr⟩

lemma filterRetained_sublist (solver : Solver) (l : List Combo) :
    List.Sublist (filterRetained solver l) l := by
  induction l with
  | nil => simp [filterRetained]
  | cons a l ih =>
    by_cases h : retains solver a
    · rw [filterRetained_cons_pos solver a l h]
      exact ih.cons₂ a
    · rw [filterRetained_cons_neg solver a l h]
      exact ih.cons a

lemma filterRetained_eq_self (solver : Solver) (l : List Combo)
    (h : ∀ c ∈ l, retains solver c) : filterRetained solver l = l := by
  induction l with
  | nil => simp [filterRetained]
  | cons a l ih =>
    rw [filterRetained_cons_pos solver a l (h a (List.mem_cons_self a l))]
    rw [ih fun c hc => h c (List.mem_cons_of_mem a hc)]

lemma skippedSpec_eq_nil (solver : Solver) (l : List Combo)
    (h : ∀ c ∈ l, retains solver c) : skippedSpec solver l = [] := by
  induction l with
  | nil => simp [skippedSpec]
  | cons a l ih =>
    rw [skippedSpec_cons_pos solver a l (h a (List.mem_cons_self a l))]
    exact ih fun c hc => h c (List.mem_cons_of_mem a hc)

lemma savedSpec_map_combo (solver : Solver) (l : List Combo) :
    ∀ n : ℕ, (savedSpec solver n l).map (fun r => r.combo) = filterRetained solver l := by
  induction l with
  | nil => intro n; simp [savedSpec, filterRetained]
  | cons a l ih =>
    intro n
    by_cases h : retains solver a
    · rw [savedSpec_cons_pos solver n a l h, filterRetained_cons_pos solver a l h,
        List.map_cons, ih]
      rfl
    · rw [savedSpec_cons_neg solver n a l h, filterRetained_cons_neg solver a l h, ih]

lemma savedSpec_length (solver : Solver) (l : List Combo) (n : ℕ) :
    (savedSpec solver n l).length = (filterRetained solver l).length := by
  have := congrArg List.length (savedSpec_map_combo solver l n)
  simpa using this

lemma savedSpec_map_simId (solver : Solver) (l : List Combo) :
    ∀ n : ℕ, (savedSpec solver n l).map (fun r => r.simId) =
      List.range' n (filterRetained solver l).length := by
  induction l with
  | nil => intro n; simp [savedSpec, filterRetained]
  | cons a l ih =>
    intro n
    by_cases h : retains solver a
    · rw [savedSpec_cons_pos solver n a l h, filterRetained_cons_pos solver a l h,
        List.map_cons, ih, List.length_cons, List.range'_succ]
      rfl
    · rw [savedSpec_cons_neg solver n a l h, filterRetained_cons_neg solver a l h, ih]

lemma savedSpec_map_xs (solver : Solver) (l : List Combo) :
    ∀ n : ℕ, (savedSpec solver n l).map (fun r => r.xs) =
      (filterRetained solver l).map (fun c => (solver c).xs) := by
  induction l with
  | nil => intro n; simp [savedSpec, filterRetained]
  | cons a l ih =>
    intro n
    by_cases h : retains solver a
    · rw [savedSpec_cons_pos solver n a l h, filterRetained_cons_pos solver a l h,
        List.map_cons, List.map_cons, ih]
      rfl
    · rw [savedSpec_cons_neg solver n a l h, filterRetained_cons_neg solver a l h, ih]

lemma mem_savedSpec (solver : Solver) (l : List Combo) :
    ∀ (n : ℕ) (r : SavedRec), r ∈ savedSpec solver n l →
      retains solver r.combo ∧ r.combo ∈ l ∧ r.ts = (solver r.combo).ts ∧
        r.xs = (solver r.combo).xs ∧ r.vs = (solver r.combo).vs ∧
        r.xStd = npStd (solver r.combo).xs ∧ r.vStd = npStd (solver r.combo).vs := by
  induction l with
  | nil => intro n r hr; simp [savedSpec] at hr
  | cons a l ih =>
    intro n r hr
    by_cases h : retains solver a
    · rw [savedSpec_cons_pos solver n a l h, List.mem_cons] at hr
      rcases hr with rfl | hr
      · exact ⟨h, List.mem_cons_self a l, rfl, rfl, rfl, rfl, rfl⟩
      · obtain ⟨h1, h2, h3⟩ := ih (n + 1) r hr
        exact ⟨h1, List.mem_cons_of_mem a h2, h3⟩
    · rw [savedSpec_cons_neg solver n a l h] at hr
      obtain ⟨h1, h2, h3⟩ := ih n r hr
      exact ⟨h1, List.mem_cons_of_mem a h2, h3⟩

lemma mem_skippedSpec (solver : Solver) (l : List Combo) (sk : SkipRec) :
    sk ∈ skippedSpec solver l ↔ ∃ c ∈ l, ¬ retains solver c ∧ sk = mkSkip solver c := by
  induction l with
  | nil => simp [skippedSpec]
  | cons a l ih =>
    by_cases h : retains solver a
    · rw [skippedSpec_cons_pos solver a l h, ih]
      constructor
      · rintro ⟨c, hc, hr, rfl⟩
        exact ⟨c, List.mem_cons_of_mem a hc, hr, rfl⟩
      · rintro ⟨c, hc, hr, rfl⟩
        rcases List.mem_cons.mp hc with rfl | hc
        · exact absurd h hr
        · exact ⟨c, hc, hr, rfl⟩
    · rw [skippedSpec_cons_neg solver a l h, List.mem_cons, ih]
      constructor
      · rintro (rfl | ⟨c, hc, hr, rfl⟩)
        · exact ⟨a, List.mem_cons_self a l, h, rfl⟩
        · exact ⟨c, List.mem_cons_of_mem a hc, hr, rfl⟩
      · rintro ⟨c, hc, hr, rfl⟩
        rcases List.mem_cons.mp hc with rfl | hc
        · exact Or.inl rfl
        · exact Or.inr ⟨c, hc, hr, rfl⟩

lemma mem_skippedSpec_map_combo (solver : Solver) (l : List Combo) (c : Combo) :
    c ∈ (skippedSpec solver l).map (fun s => s.combo) ↔ c ∈ l ∧ ¬ retains solver c := by
  rw [List.mem_map]
  constructor
  · rintro ⟨sk, hsk, rfl⟩
    obtain ⟨d, hd, hr, rfl⟩ := (mem_skippedSpec solver l sk).mp hsk
    exact ⟨hd, hr⟩
  · rintro ⟨hc, hr⟩
    exact ⟨mkSkip solver c, (mem_skippedSpec solver l _).mpr ⟨c, hc, hr, rfl⟩, rfl⟩

lemma filterRetained_skippedSpec_length (solver : Solver) (l : List Combo) :
    (filterRetained solver l).length + (skippedSpec solver l).length = l.length := by
  induction l with
  | nil => simp [filterRetained, skippedSpec]
  | cons a l ih =>
    by_cases h : retains solver a
    · rw [filterRetained_cons_pos solver a l h, skippedSpec_cons_pos solver a l h]
      simp only [List.length_cons]
      omega
    · rw [filterRetained_cons_neg solver a l h, skippedSpec_cons_neg solver a l h]
      simp only [List.length_cons]
      omega



lemma flatMap_congr {α β : Type} (l : List α) (g g' : α → List β)
    (h : ∀ a ∈ l, g a = g' a) : l.flatMap g = l.flatMap g' := by
  induction l with
  | nil => rfl
  | cons a t ih =>
    simp only [List.flatMap_cons]
    rw [h a (List.mem_cons_self a t), ih fun b hb => h b (List.mem_cons_of_mem a hb)]

lemma flatMap_eq_range {α β : Type} (d : α) (l : List α) (g : α → List β) :
    l.flatMap g = (List.range l.length).flatMap fun i => g (l.getD i d) := by
  induction l with
  | nil => rfl
  | cons a t ih =>
    rw [List.length_cons, List.range_succ_eq_map, List.flatMap_cons, List.flatMap_cons,
      List.flatMap_map]
    simp only [List.getD_cons_zero, Function.comp_def, Nat.succ_eq_add_one,
      List.getD_cons_succ]
    rw [ih]

lemma map_eq_range {α β : Type} (d : α) (l : List α) (g : α → β) :
    l.map g = (List.range l.length).map fun i => g (l.getD i d) := by
  induction l with
  | nil => rfl
  | cons a t ih =>
    rw [List.length_cons, List.range_succ_eq_map, List.map_cons, List.map_cons, List.map_map]
    simp only [List.getD_cons_zero, Function.comp_def, Nat.succ_eq_add_one,
      List.getD_cons_succ]
    rw [ih]

lemma product5_eq_index (l1 l2 l3 l4 l5 : List ℚ) :
    (l1.flatMap fun a => l2.flatMap fun b => l3.flatMap fun c =>
      l4.flatMap fun d => l5.map fun e => Combo.mk a b c d e)
      = ((List.range l1.length).flatMap fun i1 =>
          (List.range l2.length).flatMap fun i2 =>
            (List.range l3.length).flatMap fun i3 =>
              (List.range l4.length).flatMap fun i4 =>
                (List.range l5.length).map fun i5 =>
                  Combo.mk (l1.getD i1 0) (l2.getD i2 0) (l3.getD i3 0)
                    (l4.getD i4 0) (l5.getD i5 0)) := by
  rw [flatMap_eq_range 0 l1]
  refine flatMap_congr _ _ _ fun i1 _ => ?_
  rw [flatMap_eq_range 0 l2]
  refine flatMap_congr _ _ _ fun i2 _ => ?_
  rw [flatMap_eq_range 0 l3]
  refine flatMap_congr _ _ _ fun i3 _ => ?_
  rw [flatMap_eq_range 0 l4]
  refine flatMap_congr _ _ _ fun i4 _ => ?_
  exact map_eq_range 0 l5 _

lemma sweepCombos_eq_decode :
    sweepCombos theConfig = sweepIndexCombos.map (decodeIndex theConfig) := by
  show (theConfig.F_values.flatMap fun F =>
    theConfig.delta_values.flatMap fun delta =>
      theConfig.omega_values.flatMap fun omega =>
        theConfig.x0_vals.flatMap fun x0 =>
          theConfig.v0_vals.map fun v0 => Combo.mk F delta omega x0 v0) = _
  rw [product5_eq_index]
  simp only [sweepIndexCombos, List.map_flatMap, List.map_map]
  rfl

set_option maxRecDepth 40000 in
lemma sweepIndexCombos_length : sweepIndexCombos.length = 450 := by decide

lemma mem_nested5 (i1 i2 i3 i4 : ℕ) (n5 : ℕ) (x : ℕ × ℕ × ℕ × ℕ × ℕ)
    (hx : x ∈ (List.range n5).map fun i5 => (i1, i2, i3, i4, i5)) :
    x.1 = i1 ∧ x.2.1 = i2 ∧ x.2.2.1 = i3 ∧ x.2.2.2.1 = i4 := by
  obtain ⟨i5, _, rfl⟩ := List.mem_map.mp hx
  exact ⟨rfl, rfl, rfl, rfl⟩

lemma mem_nested4 (i1 i2 i3 : ℕ) (n4 n5 : ℕ) (x : ℕ × ℕ × ℕ × ℕ × ℕ)
    (hx : x ∈ (List.range n4).flatMap fun i4 =>
      (List.range n5).map fun i5 => (i1, i2, i3, i4, i5)) :
    x.1 = i1 ∧ x.2.1 = i2 ∧ x.2.2.1 = i3 := by
  obtain ⟨i4, _, hx⟩ := List.mem_flatMap.mp hx
  obtain ⟨h1, h2, h3, _⟩ := mem_nested5 i1 i2 i3 i4 n5 x hx
  exact ⟨h1, h2, h3⟩

lemma mem_nested3 (i1 i2 : ℕ) (n3 n4 n5 : ℕ) (x : ℕ × ℕ × ℕ × ℕ × ℕ)
    (hx : x ∈ (List.range n3).flatMap fun i3 => (List.range n4).flatMap fun i4 =>
      (List.range n5).map fun i5 => (i1, i2, i3, i4, i5)) :
    x.1 = i1 ∧ x.2.1 = i2 := by
  obtain ⟨i3, _, hx⟩ := List.mem_flatMap.mp hx
  obtain ⟨h1, h2, _⟩ := mem_nested4 i1 i2 i3 n4 n5 x hx
  exact ⟨h1, h2⟩

lemma mem_nested2 (i1 : ℕ) (n2 n3 n4 n5 : ℕ) (x : ℕ × ℕ × ℕ × ℕ × ℕ)
    (hx : x ∈ (List.range n2).flatMap fun i2 => (List.range n3).flatMap fun i3 =>
      (List.range n4).flatMap fun i4 =>
        (List.range n5).map fun i5 => (i1, i2, i3, i4, i5)) :
    x.1 = i1 := by
  obtain ⟨i2, _, hx⟩ := List.mem_flatMap.mp hx
  exact (mem_nested3 i1 i2 n3 n4 n5 x hx).1

lemma pairwise_nested (n1 n2 n3 n4 n5 : ℕ) :
    List.Pairwise indexLexLt
      ((List.range n1).flatMap fun i1 => (List.range n2).flatMap fun i2 =>
        (List.range n3).flatMap fun i3 => (List.range n4).flatMap fun i4 =>
          (List.range n5).map fun i5 => (i1, i2, i3, i4, i5)) := by
  rw [List.pairwise_flatMap]
  constructor
  · intro i1 _
    rw [List.pairwise_flatMap]
    constructor
    · intro i2 _
      rw [List.pairwise_flatMap]
      constructor
      · intro i3 _
        rw [List.pairwise_flatMap]
        constructor
        · intro i4 _
          rw [List.pairwise_map]
          refine (List.pairwise_lt_range n5).imp ?_
          intro a b hab
          exact Or.inr ⟨rfl, Or.inr ⟨rfl, Or.inr ⟨rfl, Or.inr ⟨rfl, hab⟩⟩⟩⟩
        · refine (List.pairwise_lt_range n4).imp ?_
          intro a b hab x hx y hy
          obtain ⟨hx1, hx2, hx3, hx4⟩ := mem_nested5 i1 i2 i3 a n5 x hx
          obtain ⟨hy1, hy2, hy3, hy4⟩ := mem_nested5 i1 i2 i3 b n5 y hy
          exact Or.inr ⟨hx1.trans hy1.symm, Or.inr ⟨hx2.trans hy2.symm,
            Or.inr ⟨hx3.trans hy3.symm, Or.inl (by rw [hx4, hy4]; exact hab)⟩⟩⟩
      · refine (List.pairwise_lt_range n3).imp ?_
        intro a b hab x hx y hy
        obtain ⟨hx1, hx2, hx3⟩ := mem_nested4 i1 i2 a n4 n5 x hx
        obtain ⟨hy1, hy2, hy3⟩ := mem_nested4 i1 i2 b n4 n5 y hy
        exact Or.inr ⟨hx1.trans hy1.symm, Or.inr ⟨hx2.trans hy2.symm,
          Or.inl (by rw [hx3, hy3]; exact hab)⟩⟩
    · refine (List.pairwise_lt_range n2).imp ?_
      intro a b hab x hx y hy
      obtain ⟨hx1, hx2⟩ := mem_nested3 i1 a n3 n4 n5 x hx
      obtain ⟨hy1, hy2⟩ := mem_nested3 i1 b n3 n4 n5 y hy
      exact Or.inr ⟨hx1.trans hy1.symm, Or.inl (by rw [hx2, hy2]; exact hab)⟩
  · refine (List.pairwise_lt_range n1).imp ?_
    intro a b hab x hx y hy
    have hx1 := mem_nested2 a n2 n3 n4 n5 x hx
    have hy1 := mem_nested2 b n2 n3 n4 n5 y hy
    exact Or.inl (by rw [hx1, hy1]; exact hab)

lemma sweepIndexCombos_sorted : List.Pairwise indexLexLt sweepIndexCombos :=
  pairwise_nested _ _ _ _ _

lemma indexLexLt_irrefl (p : ℕ × ℕ × ℕ × ℕ × ℕ) : ¬ indexLexLt p p := by
  unfold indexLexLt
  omega

lemma sweepIndexCombos_nodup : sweepIndexCombos.Nodup := by
  refine sweepIndexCombos_sorted.imp ?_
  intro a b h heq
  subst heq
  exact indexLexLt_irrefl a h



lemma F_values_length : theConfig.F_values.length = 3 := rfl

lemma delta_values_length : theConfig.delta_values.length = 2 := rfl

lemma omega_values_length : theConfig.omega_values.length = 3 := rfl

lemma x0_vals_length : theConfig.x0_vals.length = 5 := rfl

lemma v0_vals_length : theConfig.v0_vals.length = 5 := rfl

lemma x0_vals_eq : theConfig.x0_vals = [-2, -1, 0, 1, 2] := by
  have h5 : List.range 5 = [0, 1, 2, 3, 4] := by decide
  show linspace (-2) 2 5 = [-2, -1, 0, 1, 2]
  rw [linspace, h5]
  norm_num [List.cons.injEq]

lemma v0_vals_eq : theConfig.v0_vals = [-2, -1, 0, 1, 2] := x0_vals_eq

lemma mem_sweepIndexCombos_bounds (p : ℕ × ℕ × ℕ × ℕ × ℕ) (hp : p ∈ sweepIndexCombos) :
    p.1 < 3 ∧ p.2.1 < 2 ∧ p.2.2.1 < 3 ∧ p.2.2.2.1 < 5 ∧ p.2.2.2.2 < 5 := by
  rw [sweepIndexCombos] at hp
  obtain ⟨i1, h1, hp⟩ := List.mem_flatMap.mp hp
  obtain ⟨i2, h2, hp⟩ := List.mem_flatMap.mp hp
  obtain ⟨i3, h3, hp⟩ := List.mem_flatMap.mp hp
  obtain ⟨i4, h4, hp⟩ := List.mem_flatMap.mp hp
  obtain ⟨i5, h5, rfl⟩ := List.mem_map.mp hp
  refine ⟨?_, ?_, ?_, ?_, ?_⟩
  · exact F_values_length ▸ List.mem_range.mp h1
  · exact delta_values_length ▸ List.mem_range.mp h2
  · exact omega_values_length ▸ List.mem_range.mp h3
  · exact x0_vals_length ▸ List.mem_range.mp h4
  · exact v0_vals_length ▸ List.mem_range.mp h5

lemma F_values_getD_inj :
    ∀ i < 3, ∀ j < 3,
      theConfig.F_values.getD i 0 = theConfig.F_values.getD j 0 → i = j := by
  intro i hi j hj
  interval_cases i <;> interval_cases j <;> intro h <;>
    first
      | rfl
      | norm_num [theConfig] at h

lemma delta_values_getD_inj :
    ∀ i < 2, ∀ j < 2,
      theConfig.delta_values.getD i 0 = theConfig.delta_values.getD j 0 → i = j := by
  intro i hi j hj
  interval_cases i <;> interval_cases j <;> intro h <;>
    first
      | rfl
      | norm_num [theConfig] at h

lemma omega_values_getD_inj :
    ∀ i < 3, ∀ j < 3,
      theConfig.omega_values.getD i 0 = theConfig.omega_values.getD j 0 → i = j := by
  intro i hi j hj
  interval_cases i <;> interval_cases j <;> intro h <;>
    first
      | rfl
      | norm_num [theConfig] at h

lemma x0_vals_getD_inj :
    ∀ i < 5, ∀ j < 5,
      theConfig.x0_vals.getD i 0 = theConfig.x0_vals.getD j 0 → i = j := by
  intro i hi j hj
  interval_cases i <;> interval_cases j <;> intro h <;>
    first
      | rfl
      | norm_num [x0_vals_eq] at h

lemma v0_vals_getD_inj :
    ∀ i < 5, ∀ j < 5,
      theConfig.v0_vals.getD i 0 = theConfig.v0_vals.getD j 0 → i = j := by
  intro i hi j hj
  interval_cases i <;> interval_cases j <;> intro h <;>
    first
      | rfl
      | norm_num [v0_vals_eq] at h

lemma decodeIndex_inj_on (p q : ℕ × ℕ × ℕ × ℕ × ℕ)
    (hp : p ∈ sweepIndexCombos) (hq : q ∈ sweepIndexCombos)
    (h : decodeIndex theConfig p = decodeIndex theConfig q) : p = q := by
  obtain ⟨hb1, hb2, hb3, hb4, hb5⟩ := mem_sweepIndexCombos_bounds p hp
  obtain ⟨hc1, hc2, hc3, hc4, hc5⟩ := mem_sweepIndexCombos_bounds q hq
  rw [decodeIndex, decodeIndex, Combo.mk.injEq] at h
  obtain ⟨h1, h2, h3, h4, h5⟩ := h
  obtain ⟨p1, p2, p3, p4, p5⟩ := p
  obtain ⟨q1, q2, q3, q4, q5⟩ := q
  have e1 := F_values_getD_inj p1 hb1 q1 hc1 h1
  have e2 := delta_values_getD_inj p2 hb2 q2 hc2 h2
  have e3 := omega_values_getD_inj p3 hb3 q3 hc3 h3
  have e4 := x0_vals_getD_inj p4 hb4 q4 hc4 h4
  have e5 := v0_vals_getD_inj p5 hb5 q5 hc5 h5
  subst e1
  subst e2
  subst e3
  subst e4
  subst e5
  rfl

lemma sweepCombos_nodup : (sweepCombos theConfig).Nodup := by
  rw [sweepCombos_eq_decode]
  exact List.Nodup.map_on (fun p hp q hq h => decodeIndex_inj_on p q hp hq h)
    sweepIndexCombos_nodup

lemma sweepCombos_length : (sweepCombos theConfig).length = 450 := by
  rw [sweepCombos_eq_decode, List.length_map, sweepIndexCombos_length]

lemma mem_sweepCombos (cfg : Config) (c : Combo) :
    c ∈ sweepCombos cfg ↔
      c.F ∈ cfg.F_values ∧ c.delta ∈ cfg.delta_values ∧ c.omega ∈ cfg.omega_values ∧
        c.x0 ∈ cfg.x0_vals ∧ c.v0 ∈ cfg.v0_vals := by
  obtain ⟨F, delta, omega, x0, v0⟩ := c
  simp [sweepCombos, List.mem_flatMap, List.mem_map, Combo.mk.injEq]
  aesop



lemma npStd_eq_popStdDev (xs : List ℝ) : npStd xs = popStdDev xs := by
  rw [npStd, popStdDev, listMean]
  congr 1
  rw [div_eq_mul_inv, one_div, mul_comm]

lemma npStd_01 : npStd [(0 : ℝ), 1] = 1 / 2 := by
  unfold npStd listMean
  norm_num
  rw [show (4 : ℝ) = 2 ^ 2 by norm_num, Real.sqrt_sq (by norm_num : (0 : ℝ) ≤ 2)]
  norm_num

lemma retains_truncSolver (c : Combo) : retains truncSolver c := by
  left
  show npStd (truncSolver c).xs > 0.05
  have h : (truncSolver c).xs = [(0 : ℝ), 1] := rfl
  rw [h, npStd_01]
  norm_num

lemma t_eval_length : (t_eval theConfig).length = 10000 := by
  show (arange 0 100 (1/100)).length = 10000
  rw [arange, List.length_map, List.length_range]
  have h : ((100 : ℚ) - 0) / (1/100) = 10000 := by norm_num
  rw [h]
  simp

lemma arange_length (a b s : ℚ) : (arange a b s).length = (⌈(b - a) / s⌉).toNat := by
  rw [arange, List.length_map, List.length_range]

lemma arange_cex_length : (arange 0 1 (2/5)).length = 3 := by
  rw [arange_length]
  have h : ⌈((1 : ℚ) - 0) / (2/5)⌉ = 3 := by
    rw [Int.ceil_eq_iff]
    norm_num
  rw [h]
  rfl

lemma floor_cex : (⌊((1 : ℚ) - 0) / (2/5)⌋).toNat = 2 := by
  have h : ⌊((1 : ℚ) - 0) / (2/5)⌋ = 2 := by
    rw [Int.floor_eq_iff]
    norm_num
  rw [h]
  rfl

lemma arange_getElem (a b s : ℚ) (i : ℕ) (hi : i < (arange a b s).length) :
    (arange a b s)[i] = a + (i : ℚ) * s := by
  simp [arange, List.getElem_map, List.getElem_range]

lemma arange_pairwise (a b s : ℚ) (hs : 0 < s) :
    List.Pairwise (· < ·) (arange a b s) := by
  rw [arange]
  refine List.Pairwise.map _ ?_ (List.pairwise_lt_range _)
  intro x y hxy
  have hx : (x : ℚ) < y := by exact_mod_cast hxy
  nlinarith

lemma arange_head (a b s : ℚ) (hs : 0 < s) (hab : a < b) :
    (arange a b s).head? = some a := by
  have hpos : 0 < ⌈(b - a) / s⌉ := Int.ceil_pos.mpr (div_pos (by linarith) hs)
  rw [arange]
  obtain ⟨n, hn⟩ : ∃ n : ℕ, (⌈(b - a) / s⌉).toNat = n + 1 :=
    ⟨(⌈(b - a) / s⌉).toNat - 1, by omega⟩
  rw [hn, List.range_succ_eq_map, List.map_cons, List.head?_cons]
  norm_num



/-- Claim C1: for every time `t`, state `(x, v)` and parameter set
`(m, k, alpha, delta, F, omega)`, the vector field returns the derivative
pair `(v, a)` with `a = (1/m) * (-delta*v - k*x - alpha*x^3 + F*cos(omega*t))`;
equivalently, for nonzero mass the returned acceleration satisfies the
second-order Duffing equation `m*a + delta*v + k*x + alpha*x^3 = F*cos(omega*t)`.
Purity and statelessness hold by construction: `duffing` is a pure function
of exactly these arguments. -/
theorem duffing_vector_field (m k alpha delta F omega t x v : ℝ) (hm : m ≠ 0) :
    duffing m k alpha delta F omega t (x, v) =
      (v, (1 / m) * (-delta * v - k * x - alpha * x ^ 3 + F * Real.cos (omega * t))) ∧
    m * (duffing m k alpha delta F omega t (x, v)).2 + delta * v + k * x + alpha * x ^ 3 =
      F * Real.cos (omega * t) := by
  constructor
  · rfl
  · show m * ((1 / m) * (-delta * v - k * x - alpha * x ^ 3 + F * Real.cos (omega * t))) +
      delta * v + k * x + alpha * x ^ 3 = F * Real.cos (omega * t)
    field_simp
    ring

/-- Witness for C1 at the concrete input
`m = k = alpha = delta = 1`, `F = 0`, `omega = 1`, `t = 0`, `(x, v) = (1, 1)`. -/
theorem duffing_vector_field_witness :
    (1 : ℝ) ≠ 0 ∧
      (duffing 1 1 1 1 0 1 0 (1, 1) =
        (1, (1 / 1) * (-1 * 1 - 1 * 1 - 1 * 1 ^ 3 + 0 * Real.cos (1 * 0))) ∧
      1 * (duffing 1 1 1 1 0 1 0 (1, 1)).2 + 1 * 1 + 1 * 1 + 1 * 1 ^ 3 =
        0 * Real.cos (1 * 0)) :=
  ⟨one_ne_zero, duffing_vector_field 1 1 1 1 0 1 0 1 1 one_ne_zero⟩

/-- Claim C2 (counterexample): the sampler does not always produce
`floor((t_end - t_start)/dt)` points.  On the TimeSpan
`t_start = 0, t_end = 1, dt = 2/5` (a valid TimeSpan: `dt > 0`,
`t_end > t_start`) the grid `np.arange(0, 1, 2/5)` has 3 points
(`0, 2/5, 4/5`) while `floor((1-0)/(2/5)) = 2`. -/
theorem arange_floor_counterexample :
    (arange 0 1 (2/5)).length = 3 ∧ (⌊((1 : ℚ) - 0) / (2/5)⌋).toNat = 2 ∧
      (arange 0 1 (2/5)).length ≠ (⌊((1 : ℚ) - 0) / (2/5)⌋).toNat :=
  ⟨arange_cex_length, floor_cex, by rw [arange_cex_length, floor_cex]; omega⟩

/-- Claim C2 (amended): for every TimeSpan with `dt > 0` and
`t_end > t_start`, the grid has exactly `ceil((t_end - t_start)/dt)`
points (which coincides with the claimed floor exactly when `dt` divides
the span, as it does in the script's configuration), at times
`t_start + i*dt`, strictly time-ascending, with first timestamp
`t_start`. -/
theorem arange_grid_spec (a b s : ℚ) (hs : 0 < s) (hab : a < b) :
    (arange a b s).length = (⌈(b - a) / s⌉).toNat ∧
    (∀ (i : ℕ) (hi : i < (arange a b s).length), (arange a b s)[i] = a + (i : ℚ) * s) ∧
    List.Pairwise (· < ·) (arange a b s) ∧
    (arange a b s).head? = some a :=
  ⟨arange_length a b s, fun i hi => arange_getElem a b s i hi,
    arange_pairwise a b s hs, arange_head a b s hs hab⟩

/-- Witness for the amended C2 at the concrete TimeSpan `(0, 1, 2/5)`. -/
theorem arange_grid_spec_witness :
    (0 : ℚ) < 2/5 ∧ (0 : ℚ) < 1 ∧
      ((arange 0 1 (2/5)).length = (⌈((1 : ℚ) - 0) / (2/5)⌉).toNat ∧
       (∀ (i : ℕ) (hi : i < (arange 0 1 (2/5)).length),
         (arange 0 1 (2/5))[i] = 0 + (i : ℚ) * (2/5)) ∧
       List.Pairwise (· < ·) (arange 0 1 (2/5)) ∧
       (arange 0 1 (2/5)).head? = some 0) :=
  ⟨by norm_num, by norm_num, arange_grid_spec 0 1 (2/5) (by norm_num) (by norm_num)⟩

/-- Claim C3: the classifier computes the population standard deviation of
the x-series and the v-series (the embedded `npStd` coincides with the
specification's population standard deviation), and a trajectory is handed
to the sink if and only if `std(x) > 0.05` or `std(v) > 0.05` (strict);
otherwise it is discarded (logged as skipped) and never appears among the
sink calls. -/
theorem classifier_retention (solver : Solver) :
    (∀ xs : List ℝ, npStd xs = popStdDev xs) ∧
    (∀ r ∈ (runSweep solver).saved,
      npStd (solver r.combo).xs > 0.05 ∨ npStd (solver r.combo).vs > 0.05) ∧
    (∀ s ∈ (runSweep solver).skipped,
      ¬ (npStd (solver s.combo).xs > 0.05 ∨ npStd (solver s.combo).vs > 0.05)) ∧
    (∀ c ∈ sweepCombos theConfig,
      ((npStd (solver c).xs > 0.05 ∨ npStd (solver c).vs > 0.05) ↔
        c ∈ (runSweep solver).saved.map (fun r => r.combo))) := by
  refine ⟨npStd_eq_popStdDev, ?_, ?_, ?_⟩
  · intro r hr
    rw [runSweep_eq] at hr
    exact (mem_savedSpec solver (sweepCombos theConfig) 0 r hr).1
  · intro s hs
    rw [runSweep_eq] at hs
    obtain ⟨c, _, hnr, rfl⟩ := (mem_skippedSpec solver (sweepCombos theConfig) s).mp hs
    exact hnr
  · intro c hc
    constructor
    · intro h
      rw [runSweep_eq]
      show c ∈ (savedSpec solver 0 (sweepCombos theConfig)).map fun r => r.combo
      rw [savedSpec_map_combo]
      exact (mem_filterRetained solver (sweepCombos theConfig) c).mpr ⟨hc, h⟩
    · intro h
      rw [runSweep_eq] at h
      have h2 : c ∈ (savedSpec solver 0 (sweepCombos theConfig)).map fun r => r.combo := h
      rw [savedSpec_map_combo] at h2
      exact ((mem_filterRetained solver (sweepCombos theConfig) c).mp h2).2

/-- Claim C4: the sweep driver visits exactly the Cartesian product of the
three parameter lists and the two initial-condition grids, 450 combinations
in all, each exactly once (the list of combinations has no duplicate), and
in lexicographic order over the declared axis orderings: the visited list
equals the decode of the index-tuple list, and the index tuples are
strictly lexicographically increasing with `F` outermost and `v0`
innermost. -/
theorem sweep_enumeration :
    (sweepCombos theConfig).length = 450 ∧
    (sweepCombos theConfig).Nodup ∧
    (∀ c : Combo, c ∈ sweepCombos theConfig ↔
      (c.F ∈ theConfig.F_values ∧ c.delta ∈ theConfig.delta_values ∧
        c.omega ∈ theConfig.omega_values ∧ c.x0 ∈ theConfig.x0_vals ∧
        c.v0 ∈ theConfig.v0_vals)) ∧
    sweepCombos theConfig = sweepIndexCombos.map (decodeIndex theConfig) ∧
    List.Pairwise indexLexLt sweepIndexCombos :=
  ⟨sweepCombos_length, sweepCombos_nodup, mem_sweepCombos theConfig,
    sweepCombos_eq_decode, sweepIndexCombos_sorted⟩

/-- Claim C5 (the code at the failing input): under an oracle on which
every integration fails (`success = false`) after reaching only 2 of the
10000 requested grid points, the script still classifies every truncated
trajectory and saves all 450 of them; nothing fails the trajectory.  The
script never checks `sol.success`, so a trajectory shorter than the
requested grid is passed to the classifier and written to the sink,
contradicting the claim. -/
theorem truncated_trajectory_classified :
    (∀ c : Combo, (truncSolver c).success = false) ∧
    (truncSolver comboZero).xs.length = 2 ∧
    (t_eval theConfig).length = 10000 ∧
    (runSweep truncSolver).saved.length = 450 ∧
    (runSweep truncSolver).skipped = [] ∧
    ((runSweep truncSolver).saved.map fun r => r.xs.length) = List.replicate 450 2 := by
  have hall : ∀ c ∈ sweepCombos theConfig, retains truncSolver c :=
    fun c _ => retains_truncSolver c
  have hfr : filterRetained truncSolver (sweepCombos theConfig) = sweepCombos theConfig :=
    filterRetained_eq_self truncSolver (sweepCombos theConfig) hall
  refine ⟨fun c => rfl, rfl, t_eval_length, ?_, ?_, ?_⟩
  · rw [runSweep_eq]
    show (savedSpec truncSolver 0 (sweepCombos theConfig)).length = 450
    rw [savedSpec_length, hfr, sweepCombos_length]
  · rw [runSweep_eq]
    show skippedSpec truncSolver (sweepCombos theConfig) = []
    exact skippedSpec_eq_nil truncSolver (sweepCombos theConfig) hall
  · rw [runSweep_eq]
    show ((savedSpec truncSolver 0 (sweepCombos theConfig)).map fun r => r.xs.length) =
      List.replicate 450 2
    have h1 : ((savedSpec truncSolver 0 (sweepCombos theConfig)).map fun r => r.xs.length) =
        (((savedSpec truncSolver 0 (sweepCombos theConfig)).map fun r => r.xs).map
          fun l => l.length) := by
      rw [List.map_map]
      rfl
    rw [h1, savedSpec_map_xs, hfr, List.map_map]
    have h2 : ((fun l : List ℝ => l.length) ∘ fun c : Combo => (truncSolver c).xs) =
        fun _ : Combo => 2 := rfl
    rw [h2, List.map_const', sweepCombos_length]

/-- Claim C6: identifiers of retained trajectories are unique within a run
(no two sink calls share a `sim_id`, and no two sink calls share a
combination, so the mapping from combination to identifier is
single-valued), and they are stable: a second run whose oracle behaves
identically produces the identical combination-to-identifier mapping.
The run itself is a pure function of the configuration and the oracle, so
determinism across repeated runs holds by construction. -/
theorem identifiers_unique_stable (solver : Solver) :
    ((runSweep solver).saved.map (fun r => r.simId)).Nodup ∧
    ((runSweep solver).saved.map (fun r => r.combo)).Nodup ∧
    (∀ r1 ∈ (runSweep solver).saved, ∀ r2 ∈ (runSweep solver).saved,
      r1.combo = r2.combo → r1.simId = r2.simId) ∧
    (∀ solver2 : Solver, (∀ c : Combo, solver2 c = solver c) →
      (runSweep solver2).saved.map (fun r => (r.combo, r.simId)) =
        (runSweep solver).saved.map (fun r => (r.combo, r.simId))) := by
  have hidn : ((runSweep solver).saved.map (fun r => r.simId)).Nodup := by
    rw [runSweep_eq]
    show ((savedSpec solver 0 (sweepCombos theConfig)).map fun r => r.simId).Nodup
    rw [savedSpec_map_simId]
    exact List.nodup_range' 0 (filterRetained solver (sweepCombos theConfig)).length 1
      Nat.one_pos
  have hcn : ((runSweep solver).saved.map (fun r => r.combo)).Nodup := by
    rw [runSweep_eq]
    show ((savedSpec solver 0 (sweepCombos theConfig)).map fun r => r.combo).Nodup
    rw [savedSpec_map_combo]
    exact (filterRetained_sublist solver (sweepCombos theConfig)).nodup sweepCombos_nodup
  refine ⟨hidn, hcn, ?_, ?_⟩
  · intro r1 h1 r2 h2 hc
    have hr : r1 = r2 := List.inj_on_of_nodup_map hcn h1 h2 hc
    rw [hr]
  · intro solver2 hss
    have h : solver2 = solver := funext hss
    rw [h]

/-- Claim C7 (the code at the failing input): the script performs no
configuration validation at all.  Under the configuration with `m = 0`
(non-positive mass) it runs the full 450-combination sweep exactly as
under the valid configuration, and under the configuration with
`dt = -1/100` (non-positive step, which makes the requested grid empty)
it likewise runs the full sweep; no `InvalidConfiguration` error exists
anywhere in the program (its result type has no error case), contradicting
the claim that such configurations are rejected before integration. -/
theorem invalid_config_not_rejected :
    badMassConfig.m ≤ 0 ∧
    badDtConfig.dt ≤ 0 ∧
    (sweepCombos badMassConfig).length = 450 ∧
    (∀ solver : Solver, runSweepCfg badMassConfig solver = runSweepCfg theConfig solver) ∧
    t_eval badDtConfig = [] ∧
    (∀ solver : Solver, runSweepCfg badDtConfig solver = runSweepCfg theConfig solver) := by
  refine ⟨le_refl 0, by norm_num [badDtConfig, theConfig], sweepCombos_length,
    fun _ => rfl, ?_, fun _ => rfl⟩
  have hl : (t_eval badDtConfig).length = 0 := by
    show (arange 0 100 (-(1/100))).length = 0
    rw [arange_length, Int.toNat_eq_zero]
    refine Int.ceil_le.mpr ?_
    norm_num
  exact List.eq_nil_of_length_eq_zero hl

/-- Claim C8 (counterexample): an `IntegrationFailure` is not recorded as a
skipped/failed case.  Under the oracle on which every combination's
integration fails (`success = false`, truncated output), the run records
zero skipped cases and instead saves all 450 failed trajectories as if
they had succeeded. -/
theorem integration_failure_saved_counterexample :
    (∀ c : Combo, (truncSolver c).success = false) ∧
    (runSweep truncSolver).skipped = [] ∧
    (runSweep truncSolver).saved.length = 450 := by
  have hall : ∀ c ∈ sweepCombos theConfig, retains truncSolver c :=
    fun c _ => retains_truncSolver c
  refine ⟨fun c => rfl, ?_, ?_⟩
  · rw [runSweep_eq]
    show skippedSpec truncSolver (sweepCombos theConfig) = []
    exact skippedSpec_eq_nil truncSolver (sweepCombos theConfig) hall
  · rw [runSweep_eq]
    show (savedSpec truncSolver 0 (sweepCombos theConfig)).length = 450
    rw [savedSpec_length,
      filterRetained_eq_self truncSolver (sweepCombos theConfig) hall, sweepCombos_length]

/-- Claim C8 (amended): an integration failure on one combination never
aborts the sweep: every one of the 450 combinations is processed to
completion (each ends up either saved or skipped, and the two tallies sum
to 450), and one combination's outcome depends only on its own solver
result, so a failure on one combination leaves every other combination's
result unchanged.  However the failed case is not recorded as a
skipped/failed case: its truncated trajectory is classified like any
other and may even be saved (see the counterexample). -/
theorem sweep_never_aborts (solver : Solver) :
    (runSweep solver).saved.length + (runSweep solver).skipped.length = 450 ∧
    (∀ c ∈ sweepCombos theConfig,
      c ∈ (runSweep solver).saved.map (fun r => r.combo) ∨
        c ∈ (runSweep solver).skipped.map (fun s => s.combo)) ∧
    (∀ (solver2 : Solver) (c : Combo), solver2 c = solver c →
      (c ∈ (runSweep solver2).saved.map (fun r => r.combo) ↔
        c ∈ (runSweep solver).saved.map (fun r => r.combo))) := by
  refine ⟨?_, ?_, ?_⟩
  · rw [runSweep_eq]
    show (savedSpec solver 0 (sweepCombos theConfig)).length +
      (skippedSpec solver (sweepCombos theConfig)).length = 450
    rw [savedSpec_length, filterRetained_skippedSpec_length, sweepCombos_length]
  · intro c hc
    by_cases h : retains solver c
    · left
      rw [runSweep_eq]
      show c ∈ (savedSpec solver 0 (sweepCombos theConfig)).map fun r => r.combo
      rw [savedSpec_map_combo]
      exact (mem_filterRetained solver (sweepCombos theConfig) c).mpr ⟨hc, h⟩
    · right
      rw [runSweep_eq]
      show c ∈ (skippedSpec solver (sweepCombos theConfig)).map fun s => s.combo
      exact (mem_skippedSpec_map_combo solver (sweepCombos theConfig) c).mpr ⟨hc, h⟩
  · intro solver2 c h
    have hret : retains solver2 c ↔ retains solver c := by
      unfold retains
      rw [h]
    constructor
    · intro hm
      rw [runSweep_eq] at hm
      have hm2 : c ∈ (savedSpec solver2 0 (sweepCombos theConfig)).map fun r => r.combo := hm
      rw [savedSpec_map_combo] at hm2
      obtain ⟨hcl, hr⟩ := (mem_filterRetained solver2 (sweepCombos theConfig) c).mp hm2
      rw [runSweep_eq]
      show c ∈ (savedSpec solver 0 (sweepCombos theConfig)).map fun r => r.combo
      rw [savedSpec_map_combo]
      exact (mem_filterRetained solver (sweepCombos theConfig) c).mpr ⟨hcl, hret.mp hr⟩
    · intro hm
      rw [runSweep_eq] at hm
      have hm2 : c ∈ (savedSpec solver 0 (sweepCombos theConfig)).map fun r => r.combo := hm
      rw [savedSpec_map_combo] at hm2
      obtain ⟨hcl, hr⟩ := (mem_filterRetained solver (sweepCombos theConfig) c).mp hm2
      rw [runSweep_eq]
      show c ∈ (savedSpec solver2 0 (sweepCombos theConfig)).map fun r => r.combo
      rw [savedSpec_map_combo]
      exact (mem_filterRetained solver2 (sweepCombos theConfig) c).mpr ⟨hcl, hret.mpr hr⟩

/-- Claim C9: trajectories are independent.  If two oracles agree on a
combination `c`, the retention decision for `c` is the same under both;
every sink record for `c` carries exactly the data and statistics computed
from `c`'s own solver result (so nothing from any other combination); and
the loop body reads the accumulated state only through the `sim_id`
counter: two states with equal counters produce equal counter updates and
equal newly appended sink records. -/
theorem trajectory_independence (solver1 solver2 : Solver) (c : Combo)
    (h : solver1 c = solver2 c) :
    (retains solver1 c ↔ retains solver2 c) ∧
    (∀ r ∈ (runSweep solver1).saved, r.combo = c →
      r.ts = (solver1 c).ts ∧ r.xs = (solver1 c).xs ∧ r.vs = (solver1 c).vs ∧
        r.xStd = npStd (solver1 c).xs ∧ r.vStd = npStd (solver1 c).vs) ∧
    (c ∈ (runSweep solver1).saved.map (fun r => r.combo) ↔
      c ∈ (runSweep solver2).saved.map (fun r => r.combo)) ∧
    (∀ st1 st2 : SweepState, st1.simId = st2.simId →
      (sweepStep solver1 st1 c).simId = (sweepStep solver1 st2 c).simId ∧
      (sweepStep solver1 st1 c).saved.drop st1.saved.length =
        (sweepStep solver1 st2 c).saved.drop st2.saved.length) := by
  have hret : retains solver1 c ↔ retains solver2 c := by
    unfold retains
    rw [h]
  refine ⟨hret, ?_, ?_, ?_⟩
  · intro r hr hrc
    rw [runSweep_eq] at hr
    obtain ⟨_, _, h3, h4, h5, h6, h7⟩ :=
      mem_savedSpec solver1 (sweepCombos theConfig) 0 r hr
    rw [hrc] at h3 h4 h5 h6 h7
    exact ⟨h3, h4, h5, h6, h7⟩
  · constructor
    · intro hm
      rw [runSweep_eq] at hm
      have hm2 : c ∈ (savedSpec solver1 0 (sweepCombos theConfig)).map fun r => r.combo := hm
      rw [savedSpec_map_combo] at hm2
      obtain ⟨hcl, hr⟩ := (mem_filterRetained solver1 (sweepCombos theConfig) c).mp hm2
      rw [runSweep_eq]
      show c ∈ (savedSpec solver2 0 (sweepCombos theConfig)).map fun r => r.combo
      rw [savedSpec_map_combo]
      exact (mem_filterRetained solver2 (sweepCombos theConfig) c).mpr ⟨hcl, hret.mp hr⟩
    · intro hm
      rw [runSweep_eq] at hm
      have hm2 : c ∈ (savedSpec solver2 0 (sweepCombos theConfig)).map fun r => r.combo := hm
      rw [savedSpec_map_combo] at hm2
      obtain ⟨hcl, hr⟩ := (mem_filterRetained solver2 (sweepCombos theConfig) c).mp hm2
      rw [runSweep_eq]
      show c ∈ (savedSpec solver1 0 (sweepCombos theConfig)).map fun r => r.combo
      rw [savedSpec_map_combo]
      exact (mem_filterRetained solver1 (sweepCombos theConfig) c).mpr ⟨hcl, hret.mpr hr⟩
  · intro st1 st2 hsim
    by_cases hr : retains solver1 c
    · simp only [sweepStep, if_pos hr]
      rw [hsim]
      refine ⟨rfl, ?_⟩
      rw [List.drop_left, List.drop_left]
    · simp only [sweepStep, if_neg hr]
      exact ⟨hsim, by rw [List.drop_length, List.drop_length]⟩

/-- Witness for C9: both oracles taken to be `truncSolver` and the
combination `comboZero`; the agreement hypothesis holds by reflexivity. -/
theorem trajectory_independence_witness :
    truncSolver comboZero = truncSolver comboZero ∧
      ((retains truncSolver comboZero ↔ retains truncSolver comboZero) ∧
      (∀ r ∈ (runSweep truncSolver).saved, r.combo = comboZero →
        r.ts = (truncSolver comboZero).ts ∧ r.xs = (truncSolver comboZero).xs ∧
          r.vs = (truncSolver comboZero).vs ∧
          r.xStd = npStd (truncSolver comboZero).xs ∧
          r.vStd = npStd (truncSolver comboZero).vs) ∧
      (comboZero ∈ (runSweep truncSolver).saved.map (fun r => r.combo) ↔
        comboZero ∈ (runSweep truncSolver).saved.map (fun r => r.combo)) ∧
      (∀ st1 st2 : SweepState, st1.simId = st2.simId →
        (sweepStep truncSolver st1 comboZero).simId =
          (sweepStep truncSolver st2 comboZero).simId ∧
        (sweepStep truncSolver st1 comboZero).saved.drop st1.saved.length =
          (sweepStep truncSolver st2 comboZero).saved.drop st2.saved.length)) :=
  ⟨rfl, trajectory_independence truncSolver truncSolver comboZero rfl⟩

/-- Claim C10: the counter starts at 0 and the n-th sink call (counting
from 0 in iteration order) carries identifier n with no gaps: at the end
of the sweep `sim_id` equals the number of saved trajectories and the
saved identifiers are exactly `0, 1, ..., count-1` in order; one loop
iteration increments the counter by exactly 1 and appends exactly one sink
record when the trajectory is retained, and leaves the counter and the
sink untouched when it is discarded. -/
theorem sim_id_counter_invariant (solver : Solver) :
    (runSweep solver).simId = (runSweep solver).saved.length ∧
    ((runSweep solver).saved.map (fun r => r.simId)) =
      List.range (runSweep solver).saved.length ∧
    (∀ (st : SweepState) (c : Combo), retains solver c →
      (sweepStep solver st c).simId = st.simId + 1 ∧
      (sweepStep solver st c).saved = st.saved ++ [mkSaved solver st.simId c] ∧
      (sweepStep solver st c).skipped = st.skipped) ∧
    (∀ (st : SweepState) (c : Combo), ¬ retains solver c →
      (sweepStep solver st c).simId = st.simId ∧
      (sweepStep solver st c).saved = st.saved ∧
      (sweepStep solver st c).skipped = st.skipped ++ [mkSkip solver c]) := by
  refine ⟨?_, ?_, ?_, ?_⟩
  · rw [runSweep_eq]
    show (filterRetained solver (sweepCombos theConfig)).length =
      (savedSpec solver 0 (sweepCombos theConfig)).length
    rw [savedSpec_length]
  · rw [runSweep_eq]
    show ((savedSpec solver 0 (sweepCombos theConfig)).map fun r => r.simId) =
      List.range (savedSpec solver 0 (sweepCombos theConfig)).length
    rw [savedSpec_map_simId, List.range_eq_range', savedSpec_length]
  · intro st c h
    unfold sweepStep
    rw [if_pos h]
    exact ⟨rfl, rfl, rfl⟩
  · intro st c h
    unfold sweepStep
    rw [if_neg h]
    exact ⟨rfl, rfl, rfl⟩


end Simulate
